import Mathlib

/-!
# Verification of the repp-resent orchestration core

Shallow embedding of the orchestration engine of the repp-resent repository:
the AgentDB shared store (src/unnamed/part_005, class AgentDBClient), the
research orchestrator (src/src/agents/orchestrator.ts, class
ResearchOrchestrator) and its concurrency-bounded task dispatch loop.

Modelling conventions:
- TypeScript string enums are embedded as Lean `String` so that the
  JavaScript lookup-with-default patterns (`map[k] || d`) keep their
  runtime meaning on unrecognized keys.
- `uuidv4()` values are modelled by a deterministic counter carried in the
  store state; only their use as identifiers matters to the claims.
- SQLite `datetime('now')` timestamps are modelled by a `Nat` clock that
  increases on every write, so `ORDER BY created_at DESC` is a descending
  sort on that clock.
- JavaScript truthiness on strings (empty string is falsy) and on arrays
  (always truthy) is modelled explicitly where the code relies on it.
- ISO timestamp strings whose values no claim inspects (startedAt,
  occurredAt, accessedAt bookkeeping) are either omitted or kept as plain
  data fields, as noted at each structure.
-/

namespace ReppResent

/-! ## Data model (src/unnamed/part_004, types/index.ts) -/

/-- `ScopingDocument.dataSources` (part_004 lines 43-51); the boolean
data-source flags. The optional `customSources` list is not consulted by
the orchestrator and is omitted. -/
structure DataSources where
  webSearch : Bool
  newsArticles : Bool
  financialReports : Bool
  socialMedia : Bool
  patents : Bool
  courtRecords : Bool
  deriving DecidableEq, Repr

/-- `KeyQuestion` (part_004 lines 7-24). `priority` and `category` are
zod string enums; they are embedded as `String` so the runtime fallback
branches of the category and priority lookups stay visible. -/
structure KeyQuestion where
  id : String
  question : String
  priority : String
  category : String
  subQuestions : Option (List String)
  deriving DecidableEq, Repr

/-- `ScopingDocument.targetCompany` (part_004 lines 29-35); only the
`name` field is read by the orchestration core. -/
structure TargetCompany where
  name : String
  deriving DecidableEq, Repr

/-- `ScopingDocument` (part_004 lines 26-56), restricted to the fields the
orchestration core reads. -/
structure ScopingDocument where
  id : String
  projectName : String
  targetCompany : TargetCompany
  keyQuestions : List KeyQuestion
  dataSources : DataSources
  deriving DecidableEq, Repr

/-- `ResearchStatus` (part_004 lines 65-74). -/
inductive ResearchStatus where
  | pending
  | initializing
  | researching
  | analyzing
  | synthesizing
  | reviewing
  | completed
  | failed
  | paused
  deriving DecidableEq, Repr

/-- `Source` (part_004 lines 143-154). `relevanceScore` is a stored and
compared number (never arithmetically combined), embedded as `Rat`.
The `metadata` record is omitted (opaque to the core). -/
structure Source where
  id : String
  type : String
  url : Option String
  title : String
  author : Option String
  publishedDate : Option String
  accessedAt : String
  relevanceScore : Rat
  snippet : Option String
  deriving DecidableEq, Repr

/-- `ResearchFinding` (part_004 lines 121-141) unified with its stored row
form (part_005, findings table): `createdAt` models the row `created_at`
timestamp, which `getFindings` surfaces as `metadata.discoveredAt`.
The optional `embedding` vector and free-form metadata extras are not
consulted by any claim and are omitted. -/
structure ResearchFinding where
  id : String
  projectId : String
  questionId : String
  agentId : String
  agentType : String
  category : String
  title : String
  content : String
  summary : String
  confidence : String
  sources : List Source
  relatedFindings : List String
  createdAt : Nat
  deriving DecidableEq, Repr

/-- `ResearchError` (part_004 lines 207-217), restricted to the fields the
orchestrator writes; the `id` uuid and `occurredAt` timestamp are omitted
(no claim inspects them). -/
structure ResearchError where
  agentId : Option String
  type : String
  message : String
  recoverable : Bool
  deriving DecidableEq, Repr

/-! ## JavaScript truthiness helpers -/

/-- `a || b` for JavaScript strings: the empty string is falsy. -/
def orTruthy (a : String) (b : String) : String :=
  if a = "" then b else a

/-- `a || b` where `a` is an optional JavaScript string: `undefined` and
the empty string both fall through to `b`. -/
def orTruthyOpt (a : Option String) (b : String) : String :=
  match a with
  | none => b
  | some s => orTruthy s b

/-! ## Stable descending insertion sort

JavaScript `Array.prototype.sort` is stable (ES2019), so
`arr.sort((a, b) => key(b) - key(a))` is the stable descending sort by
`key`: sorted by descending key, with equal-key elements kept in original
order. The head-first insertion sort below realizes exactly that order:
the head element is inserted before every existing element of equal key
(it originally preceded them) and after every strictly greater one. -/

/-- Insert `a` into a descending list: walk past strictly greater keys,
stop at the first key ≤ the key of `a`. -/
def insertDescBy {α β : Type} [LinearOrder β] (key : α → β) (a : α) : List α → List α
  | [] => [a]
  | b :: l => if key a < key b then b :: insertDescBy key a l else a :: b :: l

/-- Stable sort by descending `key`. -/
def sortDescBy {α β : Type} [LinearOrder β] (key : α → β) : List α → List α
  | [] => []
  | a :: l => insertDescBy key a (sortDescBy key l)

theorem mem_insertDescBy {α β : Type} [LinearOrder β] (key : α → β) (a x : α) :
    ∀ l : List α, x ∈ insertDescBy key a l ↔ x = a ∨ x ∈ l := by
  intro l
  induction l with
  | nil => simp [insertDescBy]
  | cons b l ih =>
    by_cases h : key a < key b
    · simp only [insertDescBy, if_pos h, List.mem_cons, ih]
      tauto
    · simp only [insertDescBy, if_neg h, List.mem_cons]

theorem insertDescBy_perm {α β : Type} [LinearOrder β] (key : α → β) (a : α) :
    ∀ l : List α, (insertDescBy key a l).Perm (a :: l) := by
  intro l
  induction l with
  | nil => simp [insertDescBy]
  | cons b l ih =>
    by_cases h : key a < key b
    · simp only [insertDescBy, if_pos h]
      exact (List.Perm.cons b ih).trans (List.Perm.swap a b l)
    · simp [insertDescBy, if_neg h]

theorem sortDescBy_perm {α β : Type} [LinearOrder β] (key : α → β) :
    ∀ l : List α, (sortDescBy key l).Perm l := by
  intro l
  induction l with
  | nil => simp [sortDescBy]
  | cons a l ih =>
    exact (insertDescBy_perm key a _).trans (List.Perm.cons a ih)

/-- Descending-sortedness: each element has key ≥ every later element. -/
def SortedDescBy {α β : Type} [LinearOrder β] (key : α → β) (l : List α) : Prop :=
  l.Pairwise (fun x y => key y ≤ key x)

theorem insertDescBy_sorted {α β : Type} [LinearOrder β] (key : α → β) (a : α) :
    ∀ l : List α, SortedDescBy key l → SortedDescBy key (insertDescBy key a l) := by
  intro l
  induction l with
  | nil => intro _; simp [insertDescBy, SortedDescBy]
  | cons b l ih =>
    intro hs
    rw [SortedDescBy, List.pairwise_cons] at hs
    obtain ⟨hb, hl⟩ := hs
    by_cases h : key a < key b
    · rw [SortedDescBy]
      simp only [insertDescBy, if_pos h, List.pairwise_cons]
      constructor
      · intro x hx
        rcases (mem_insertDescBy key a x l).mp hx with rfl | hxl
        · exact le_of_lt h
        · exact hb x hxl
      · exact ih hl
    · push_neg at h
      rw [SortedDescBy]
      simp only [insertDescBy, if_neg (not_lt.mpr h), List.pairwise_cons]
      refine ⟨?_, hb, hl⟩
      intro x hx
      rcases List.mem_cons.mp hx with rfl | hxl
      · exact h
      · exact le_trans (hb x hxl) h

theorem sortDescBy_sorted {α β : Type} [LinearOrder β] (key : α → β) :
    ∀ l : List α, SortedDescBy key (sortDescBy key l) := by
  intro l
  induction l with
  | nil => simp [sortDescBy, SortedDescBy]
  | cons a l ih => exact insertDescBy_sorted key a _ ih

theorem insertDescBy_filter_ne {α β : Type} [LinearOrder β] (key : α → β)
    (a : α) (k : β) (hk : ¬ key a = k) :
    ∀ l : List α,
      (insertDescBy key a l).filter (fun x => key x = k) =
        l.filter (fun x => key x = k) := by
  intro l
  induction l with
  | nil => simp [insertDescBy, hk]
  | cons b l ih =>
    by_cases h : key a < key b
    · simp only [insertDescBy, if_pos h, List.filter_cons, ih]
    · simp only [insertDescBy, if_neg h, List.filter_cons]
      simp [hk]

theorem insertDescBy_filter_eq {α β : Type} [LinearOrder β] (key : α → β)
    (a : α) (k : β) (hk : key a = k) :
    ∀ l : List α,
      (insertDescBy key a l).filter (fun x => key x = k) =
        a :: l.filter (fun x => key x = k) := by
  intro l
  induction l with
  | nil => simp [insertDescBy, hk]
  | cons b l ih =>
    by_cases h : key a < key b
    · have hbk : ¬ key b = k := fun hbk => absurd (hk ▸ hbk ▸ h) (lt_irrefl _)
      simp only [insertDescBy, if_pos h, List.filter_cons]
      rw [ih]
      simp [hbk]
    · simp only [insertDescBy, if_neg h, List.filter_cons]
      simp [hk]

/-- Stability of the stable descending sort: for every key value `k`, the
elements with key `k` appear in the sorted list in their original order. -/
theorem sortDescBy_filter {α β : Type} [LinearOrder β] (key : α → β) (k : β) :
    ∀ l : List α,
      (sortDescBy key l).filter (fun x => key x = k) =
        l.filter (fun x => key x = k) := by
  intro l
  induction l with
  | nil => simp [sortDescBy]
  | cons a l ih =>
    by_cases hk : key a = k
    · rw [sortDescBy, insertDescBy_filter_eq key a k hk, ih, List.filter_cons]
      simp [hk]
    · rw [sortDescBy, insertDescBy_filter_ne key a k hk, ih, List.filter_cons]
      simp [hk]


/-! ## AgentDB shared store (src/unnamed/part_005, class AgentDBClient) -/

namespace AgentDBClient

/-- Row of the `projects` table (part_005 lines 28-36). The
`created_at` and `updated_at` columns are not modelled (no claim reads
them). -/
structure ProjectRow where
  id : String
  name : String
  targetCompany : String
  status : String
  scopingDocument : ScopingDocument
  deriving DecidableEq, Repr

/-- Row of the `sources` table (part_005 lines 74-87): a `Source` plus its
project scope. The primary key of the table is `id` alone. -/
structure SourceRow extends Source where
  projectId : String
  deriving DecidableEq, Repr

/-- Row of the `shared_context` table (part_005 lines 105-114); primary
key `project_id`. The `updated_at` column is not modelled. -/
structure ContextRow where
  projectId : String
  targetCompany : String
  keyQuestions : List KeyQuestion
  completedTasks : List String
  pendingTasks : List String
  discoveredInsights : List String
  deriving DecidableEq, Repr

/-- Row of the `memory_entries` table (part_005 lines 39-50), restricted
to the fields `cleanExpiredMemories` consults. -/
structure MemoryRow where
  id : String
  projectId : String
  agentId : String
  type : String
  content : String
  expiresAt : Option Nat
  createdAt : Nat
  deriving DecidableEq, Repr

/-- The SQLite database state. `clock` models `datetime('now')` and is
bumped on every findings write, so `created_at` values are strictly
increasing; `uuidCounter` models `uuidv4()`. Tables are lists in
insertion order. The `agent_tasks` table is not modelled (no claim
touches it). -/
structure DB where
  projects : List ProjectRow
  findings : List ResearchFinding
  sources : List SourceRow
  contexts : List ContextRow
  memories : List MemoryRow
  clock : Nat
  uuidCounter : Nat
  deriving DecidableEq, Repr

def DB.empty : DB :=
  { projects := [], findings := [], sources := [], contexts := [],
    memories := [], clock := 0, uuidCounter := 0 }

/-- `uuidv4()`: a fresh identifier drawn from the counter. -/
def freshUuid (db : DB) : String × DB :=
  ("uuid-" ++ toString db.uuidCounter, { db with uuidCounter := db.uuidCounter + 1 })

/-- `createProject` (part_005 lines 132-146): plain `INSERT` into
`projects` (primary key `id`, so a duplicate id raises a constraint
error, modelled as `Except.error`), then an `INSERT` into
`shared_context` seeded with the key questions of the scoping document
and the empty-list column defaults. -/
def createProject (db : DB) (id name targetCompany : String)
    (scopingDocument : ScopingDocument) : Except String DB :=
  if db.projects.any (fun p => p.id == id) then
    .error "UNIQUE constraint failed: projects.id"
  else
    .ok { db with
      projects := db.projects ++
        [{ id := id, name := name, targetCompany := targetCompany,
           status := "pending", scopingDocument := scopingDocument }],
      contexts := db.contexts ++
        [{ projectId := id, targetCompany := targetCompany,
           keyQuestions := scopingDocument.keyQuestions,
           completedTasks := [], pendingTasks := [],
           discoveredInsights := [] }] }

/-- `updateProjectStatus` (part_005 lines 148-153). -/
def updateProjectStatus (db : DB) (projectId status : String) : DB :=
  { db with projects :=
      db.projects.map (fun p => if p.id == projectId then { p with status := status } else p) }

/-- `getProject` (part_005 lines 155-158). -/
def getProject (db : DB) (projectId : String) : Option ProjectRow :=
  db.projects.find? (fun p => p.id == projectId)

/-- `storeFinding` (part_005 lines 227-252): `id = finding.id || uuidv4()`
(the empty string is falsy), insert with `created_at = datetime('now')`. -/
def storeFinding (db : DB) (finding : ResearchFinding) : String × DB :=
  let (id, db1) := if finding.id = "" then freshUuid db else (finding.id, db)
  let row := { finding with id := id, createdAt := db1.clock }
  (id, { db1 with findings := db1.findings ++ [row], clock := db1.clock + 1 })

/-- The `WHERE` clause of `getFindings` (part_005 lines 254-262): the
question filter is added only `if (questionId)`, so an `undefined` or
empty-string question id leaves the query unfiltered. -/
def questionMatches (questionId : Option String) (r : ResearchFinding) : Bool :=
  match questionId with
  | some q => if q = "" then true else r.questionId == q
  | none => true

/-- `getFindings` (part_005 lines 254-304): findings of the project,
optionally filtered by question id, `ORDER BY created_at DESC` (the
`created_at` keys are distinct, see `DB.clock`). -/
def getFindings (db : DB) (projectId : String)
    (questionId : Option String := none) : List ResearchFinding :=
  sortDescBy (fun r => r.createdAt)
    (db.findings.filter (fun r => r.projectId == projectId && questionMatches questionId r))

/-- `getFindings` as a state transformer: the method only runs a
`SELECT`, so the store is returned unchanged. -/
def getFindingsOp (db : DB) (projectId : String) (questionId : Option String) :
    List ResearchFinding × DB :=
  (getFindings db projectId questionId, db)

/-- `registerSource` (part_005 lines 310-332): `id = source.id || uuidv4()`,
then `INSERT OR REPLACE` keyed on `id` (the conflicting row, if any, is
deleted and the fresh row inserted). -/
def registerSource (db : DB) (projectId : String) (source : Source) : String × DB :=
  let (id, db1) := if source.id = "" then freshUuid db else (source.id, db)
  let row : SourceRow := { toSource := { source with id := id }, projectId := projectId }
  (id, { db1 with sources := db1.sources.filter (fun r => r.id ≠ id) ++ [row] })

/-- `getSources` (part_005 lines 334-361): sources of the project,
`ORDER BY relevance_score DESC`, mapped back to `Source` values. -/
def getSources (db : DB) (projectId : String) : List Source :=
  (sortDescBy (fun r => r.relevanceScore)
      (db.sources.filter (fun r => r.projectId == projectId))).map
    (fun r => r.toSource)

/-- `getSharedContext` (part_005 lines 367-389); `stmt.get` returns the
first matching row or `undefined`. The derived `sourceRegistry` map
(built from `getSources`) is not part of the stored row and is omitted
here; no modelled operation reads it. -/
def getSharedContext (db : DB) (projectId : String) : Option ContextRow :=
  db.contexts.find? (fun r => r.projectId == projectId)

/-- The `Partial<...>` update record of `updateSharedContext`. -/
structure ContextUpdates where
  targetCompany : Option String := none
  keyQuestions : Option (List KeyQuestion) := none
  completedTasks : Option (List String) := none
  pendingTasks : Option (List String) := none
  discoveredInsights : Option (List String) := none

/-- `updateSharedContext` (part_005 lines 391-414): read the current row
(missing project: return with no write), then `UPDATE` every column to
`updates.x || current.x` — for the string column the empty string falls
through, for array columns any present array (even empty) wins. -/
def updateSharedContext (db : DB) (projectId : String) (updates : ContextUpdates) : DB :=
  match getSharedContext db projectId with
  | none => db
  | some current =>
    let merged : ContextRow :=
      { projectId := projectId,
        targetCompany :=
          match updates.targetCompany with
          | some s => orTruthy s current.targetCompany
          | none => current.targetCompany,
        keyQuestions := updates.keyQuestions.getD current.keyQuestions,
        completedTasks := updates.completedTasks.getD current.completedTasks,
        pendingTasks := updates.pendingTasks.getD current.pendingTasks,
        discoveredInsights := updates.discoveredInsights.getD current.discoveredInsights }
    { db with contexts :=
        db.contexts.map (fun r => if r.projectId == projectId then merged else r) }

/-- `addCompletedTask` (part_005 lines 416-423): append to
`completedTasks`, drop every equal entry from `pendingTasks`; a missing
project is a silent no-op. -/
def addCompletedTask (db : DB) (projectId task : String) : DB :=
  match getSharedContext db projectId with
  | none => db
  | some context =>
    updateSharedContext db projectId
      { completedTasks := some (context.completedTasks ++ [task]),
        pendingTasks := some (context.pendingTasks.filter (fun t => t ≠ task)) }

/-- `addDiscoveredInsight` (part_005 lines 425-431). -/
def addDiscoveredInsight (db : DB) (projectId insight : String) : DB :=
  match getSharedContext db projectId with
  | none => db
  | some context =>
    updateSharedContext db projectId
      { discoveredInsights := some (context.discoveredInsights ++ [insight]) }

/-- The `expires_at IS NOT NULL AND expires_at < datetime('now')`
predicate of `cleanExpiredMemories`. -/
def memoryExpired (now : Nat) (m : MemoryRow) : Bool :=
  match m.expiresAt with
  | some t => t < now
  | none => false

/-- `cleanExpiredMemories` (part_005 lines 533-539): delete expired
memory entries, return the number removed. -/
def cleanExpiredMemories (db : DB) : Nat × DB :=
  let keep := db.memories.filter (fun m => ¬ memoryExpired db.clock m)
  (db.memories.length - keep.length, { db with memories := keep })

end AgentDBClient

/-! ## Store claims: helper lemmas -/

namespace AgentDBClient

/-- Updating every context row of one project rewrites what `find?` sees
for that project to the merged row. -/
theorem find?_update_project (pid : String) (merged : ContextRow)
    (hm : merged.projectId = pid) :
    ∀ (rows : List ContextRow) (c : ContextRow),
      rows.find? (fun r => r.projectId == pid) = some c →
      (rows.map (fun r => if r.projectId == pid then merged else r)).find?
          (fun r => r.projectId == pid) = some merged := by
  intro rows
  induction rows with
  | nil => intro c hc; simp at hc
  | cons r rows ih =>
    intro c hc
    by_cases hr : r.projectId = pid
    · have hb : (r.projectId == pid) = true := by simpa using hr
      have hmb : (merged.projectId == pid) = true := by simpa using hm
      rw [List.map_cons, if_pos hb, List.find?_cons, hmb]
    · have hb : (r.projectId == pid) = false := by simpa using hr
      have hbn : ¬ ((r.projectId == pid) = true) := by simp [hb]
      rw [List.find?_cons, hb] at hc
      rw [List.map_cons, if_neg hbn, List.find?_cons, hb]
      exact ih c hc

/-- Updating the context rows of one project is invisible to `find?` for
any other project. -/
theorem find?_update_project_other (pid other : String) (hne : ¬ other = pid)
    (merged : ContextRow) (hm : merged.projectId = pid) :
    ∀ rows : List ContextRow,
      (rows.map (fun r => if r.projectId == pid then merged else r)).find?
          (fun r => r.projectId == other) =
        rows.find? (fun r => r.projectId == other) := by
  intro rows
  have hmo : (merged.projectId == other) = false := by
    simp only [hm, beq_eq_false_iff_ne, ne_eq]
    exact fun h => hne h.symm
  induction rows with
  | nil => simp
  | cons r rows ih =>
    by_cases hr : r.projectId = pid
    · have hb : (r.projectId == pid) = true := by simpa using hr
      have hro : (r.projectId == other) = false := by
        simp only [hr, beq_eq_false_iff_ne, ne_eq]
        exact fun h => hne h.symm
      rw [List.map_cons, if_pos hb, List.find?_cons, hmo, List.find?_cons, hro]
      exact ih
    · have hb : (r.projectId == pid) = false := by simpa using hr
      have hbn : ¬ ((r.projectId == pid) = true) := by simp [hb]
      rw [List.map_cons, if_neg hbn, List.find?_cons, List.find?_cons]
      by_cases hro : r.projectId = other
      · rw [show (r.projectId == other) = true by simpa using hro]
      · rw [show (r.projectId == other) = false by simpa using hro]
        exact ih

/-- Every element of the upsert result still satisfies the helper facts:
after an `INSERT OR REPLACE`, the rows carrying the written id are
exactly the fresh row. -/
theorem upsert_filter_singleton (rows : List SourceRow) (row : SourceRow)
    (i : String) (hrow : row.id = i) :
    ((rows.filter (fun r => r.id ≠ i)) ++ [row]).filter
        (fun r => r.id = i) = [row] := by
  subst hrow
  rw [List.filter_append]
  have h1 : (rows.filter (fun r => r.id ≠ row.id)).filter
      (fun r => r.id = row.id) = [] := by
    apply List.filter_eq_nil_iff.mpr
    intro r hr
    have hne := List.of_mem_filter hr
    simp only [ne_eq, decide_not, Bool.not_eq_eq_eq_not, Bool.not_true,
      decide_eq_false_iff_not] at hne
    simpa using hne
  rw [h1]
  simp

/-- An `INSERT OR REPLACE` keyed on `id` preserves distinctness of the
stored ids. -/
theorem upsert_nodup (rows : List SourceRow) (row : SourceRow)
    (i : String) (hrow : row.id = i)
    (h : (rows.map (fun r => r.id)).Nodup) :
    (((rows.filter (fun r => r.id ≠ i)) ++ [row]).map
        (fun r => r.id)).Nodup := by
  subst hrow
  rw [List.map_append]
  apply List.Nodup.append
  · exact ((List.filter_sublist rows).map (fun r => r.id)).nodup h
  · simp
  · intro a ha hb
    simp only [List.map_cons, List.map_nil, List.mem_singleton] at hb
    obtain ⟨r, hr, hrid⟩ := List.mem_map.mp ha
    have hne := List.of_mem_filter hr
    simp only [ne_eq, decide_not, Bool.not_eq_eq_eq_not, Bool.not_true,
      decide_eq_false_iff_not] at hne
    exact hne (by simpa [hrid] using hb)

/-! Concrete sample store states for witnesses and counterexamples. -/

def sampleFinding : ResearchFinding :=
  { id := "f1", projectId := "p1", questionId := "q1", agentId := "wr-1",
    agentType := "web_researcher", category := "web_research", title := "T1",
    content := "C1", summary := "S1", confidence := "high", sources := [],
    relatedFindings := [], createdAt := 0 }

def sampleFinding2 : ResearchFinding :=
  { sampleFinding with id := "f2", questionId := "q2", createdAt := 1 }

def dbTwoFindings : DB :=
  { DB.empty with findings := [sampleFinding, sampleFinding2], clock := 2 }

def sampleSource : Source :=
  { id := "s1", type := "web", url := some "https://example.com",
    title := "Example", author := none, publishedDate := none,
    accessedAt := "2024-01-01", relevanceScore := 1, snippet := none }

def dbOneSource : DB :=
  { DB.empty with
    sources := [{ toSource := sampleSource, projectId := "p1" }] }

def sampleContext : ContextRow :=
  { projectId := "p1", targetCompany := "Acme", keyQuestions := [],
    completedTasks := ["done0"], pendingTasks := ["taskA", "pend1"],
    discoveredInsights := ["i1"] }

def dbOneContext : DB := { DB.empty with contexts := [sampleContext] }

def sampleQuestion : KeyQuestion :=
  { id := "q1", question := "What is the revenue of Acme?",
    priority := "critical", category := "financial", subQuestions := none }

def sampleDoc : ScopingDocument :=
  { id := "p1", projectName := "Acme DD", targetCompany := { name := "Acme" },
    keyQuestions := [sampleQuestion],
    dataSources :=
      { webSearch := true, newsArticles := true, financialReports := true,
        socialMedia := true, patents := true, courtRecords := true } }


/-! ## Claim C7: getFindings -/

/-- C7 (counterexample): the claim says the result is restricted to the
given question id whenever one is supplied, but `getFindings` guards the
question filter with JavaScript truthiness (`if (questionId)`), so a
supplied empty-string question id does not restrict at all: both stored
findings (question ids "q1" and "q2") come back. -/
theorem getFindings_empty_question_id_counterexample :
    getFindings dbTwoFindings "p1" (some "") = [sampleFinding2, sampleFinding] ∧
      ∀ r ∈ getFindings dbTwoFindings "p1" (some ""), ¬ r.questionId = "" := by
  constructor
  · rfl
  · decide

/-- C7 (amended): `getFindings(projectId, questionId?)` returns exactly
the stored findings of the project — restricted to the question id when a
non-empty one is supplied; an empty-string question id is treated as
absent — ordered newest first by creation time; an empty match yields
the empty list rather than raising; and the read leaves the store
unchanged, so two consecutive calls with no intervening writes return
identical ordered results. -/
theorem getFindings_spec (db : DB) (pid : String) (qid : Option String) :
    ((getFindings db pid qid).Perm
        (db.findings.filter (fun r => r.projectId == pid && questionMatches qid r))) ∧
    SortedDescBy (fun r => r.createdAt) (getFindings db pid qid) ∧
    (∀ r ∈ getFindings db pid qid,
        r.projectId = pid ∧ ∀ q : String, qid = some q → ¬ q = "" → r.questionId = q) ∧
    ((∀ r ∈ db.findings, ¬ (r.projectId = pid ∧ questionMatches qid r = true)) →
        getFindings db pid qid = []) ∧
    (getFindingsOp db pid qid).2 = db ∧
    (getFindingsOp ((getFindingsOp db pid qid).2) pid qid).1 =
      (getFindingsOp db pid qid).1 := by
  refine ⟨sortDescBy_perm _ _, sortDescBy_sorted _ _, ?_, ?_, rfl, rfl⟩
  · intro r hr
    have hmem : r ∈ db.findings.filter
        (fun r => r.projectId == pid && questionMatches qid r) := by
      rw [getFindings] at hr
      exact (sortDescBy_perm _ _).mem_iff.mp hr
    have hp := List.of_mem_filter hmem
    rw [Bool.and_eq_true] at hp
    refine ⟨by simpa using hp.1, ?_⟩
    rintro q rfl hq
    have := hp.2
    rw [questionMatches, if_neg hq] at this
    simpa using this
  · intro h
    have hnil : db.findings.filter
        (fun r => r.projectId == pid && questionMatches qid r) = [] := by
      apply List.filter_eq_nil_iff.mpr
      intro r hrmem
      intro hcontra
      rw [Bool.and_eq_true] at hcontra
      exact h r hrmem ⟨by simpa using hcontra.1, hcontra.2⟩
    rw [getFindings, hnil]
    rfl

/-- C7 (witness): the amended theorem applied at a concrete store: the
filtered read is sorted newest-first, and a project with no findings
yields the empty list. -/
theorem getFindings_spec_witness :
    SortedDescBy (fun r => r.createdAt)
        (getFindings dbTwoFindings "p1" (some "q1")) ∧
      getFindings dbTwoFindings "p2" none = [] :=
  ⟨(getFindings_spec dbTwoFindings "p1" (some "q1")).2.1,
   (getFindings_spec dbTwoFindings "p2" none).2.2.2.1 (by decide)⟩


/-! ## Claim C8: registerSource / getSources -/

/-- C8: `registerSource` upserts by source id — reusing a supplied id and
drawing a fresh one when the source has none (empty string, per the
`source.id || uuidv4()` truthiness) — re-registration replaces the stored
record (after the write, the rows carrying the written id are exactly the
new record: last write wins), the registry keeps ids distinct, and
`getSources` returns the registered sources of the project ordered by
descending relevance score. -/
theorem registerSource_getSources_spec (db : DB) (pid : String) (s : Source) :
    (¬ s.id = "" → (registerSource db pid s).1 = s.id) ∧
    (s.id = "" → (registerSource db pid s).1 = (freshUuid db).1) ∧
    ((registerSource db pid s).2.sources.filter
        (fun r => r.id = (registerSource db pid s).1) =
      [{ toSource := { s with id := (registerSource db pid s).1 },
         projectId := pid }]) ∧
    ((db.sources.map (fun r => r.id)).Nodup →
      ((registerSource db pid s).2.sources.map (fun r => r.id)).Nodup) ∧
    ((getSources db pid).Perm
        ((db.sources.filter (fun r => r.projectId == pid)).map
          (fun r => r.toSource))) ∧
    SortedDescBy (fun src => src.relevanceScore) (getSources db pid) := by
  have hsort : SortedDescBy (fun src => src.relevanceScore) (getSources db pid) := by
    rw [getSources]
    rw [SortedDescBy, List.pairwise_map]
    exact sortDescBy_sorted _ _
  have hperm : (getSources db pid).Perm
      ((db.sources.filter (fun r => r.projectId == pid)).map (fun r => r.toSource)) := by
    rw [getSources]
    exact (sortDescBy_perm _ _).map _
  by_cases hid : s.id = ""
  · refine ⟨fun h => absurd hid h, fun _ => ?_, ?_, ?_, hperm, hsort⟩
    · simp [registerSource, if_pos hid, freshUuid]
    · simp only [registerSource, if_pos hid, freshUuid]
      exact upsert_filter_singleton db.sources _ _ rfl
    · intro h
      simp only [registerSource, if_pos hid, freshUuid]
      exact upsert_nodup db.sources _ _ rfl h
  · refine ⟨fun _ => ?_, fun h => absurd h hid, ?_, ?_, hperm, hsort⟩
    · simp [registerSource, if_neg hid]
    · simp only [registerSource, if_neg hid]
      exact upsert_filter_singleton db.sources _ _ rfl
    · intro h
      simp only [registerSource, if_neg hid]
      exact upsert_nodup db.sources _ _ rfl h

/-- C8 (witness): the registration theorem at a concrete store: the
supplied id "s1" is reused, the row with id "s1" is replaced by the new
record, distinctness of ids is preserved, and the project read stays
sorted by descending relevance. -/
theorem registerSource_getSources_spec_witness :
    (registerSource dbOneSource "p1"
        { sampleSource with title := "Example v2" }).1 = "s1" ∧
    ((registerSource dbOneSource "p1"
          { sampleSource with title := "Example v2" }).2.sources.map
        (fun r => r.id)).Nodup ∧
    SortedDescBy (fun src => src.relevanceScore) (getSources dbOneSource "p1") :=
  ⟨(registerSource_getSources_spec dbOneSource "p1"
      { sampleSource with title := "Example v2" }).1 (by decide),
   (registerSource_getSources_spec dbOneSource "p1"
      { sampleSource with title := "Example v2" }).2.2.2.1 (by decide),
   (registerSource_getSources_spec dbOneSource "p1"
      { sampleSource with title := "Example v2" }).2.2.2.2.2⟩

/-! ## Claim C9: createProject -/

/-- C9: `createProject` inserts the project row and a SharedContext row
whose key questions are seeded from the scoping input and whose
completed-task, pending-task and insight lists are empty; an id that
already exists makes the `INSERT` fail on the primary-key constraint
(modelled as `Except.error`) instead of overwriting. -/
theorem createProject_spec (db : DB) (id name target : String)
    (doc : ScopingDocument) :
    ((∃ p ∈ db.projects, p.id = id) →
      createProject db id name target doc =
        .error "UNIQUE constraint failed: projects.id") ∧
    ((∀ p ∈ db.projects, ¬ p.id = id) →
      createProject db id name target doc = .ok
        { db with
          projects := db.projects ++
            [{ id := id, name := name, targetCompany := target,
               status := "pending", scopingDocument := doc }],
          contexts := db.contexts ++
            [{ projectId := id, targetCompany := target,
               keyQuestions := doc.keyQuestions, completedTasks := [],
               pendingTasks := [], discoveredInsights := [] }] }) := by
  constructor
  · rintro ⟨p, hp, hpid⟩
    have ha : db.projects.any (fun p => p.id == id) = true :=
      List.any_eq_true.mpr ⟨p, hp, by simpa using hpid⟩
    simp [createProject, ha]
  · intro h
    have ha : ¬ db.projects.any (fun p => p.id == id) = true := by
      intro hc
      obtain ⟨p, hp, hpid⟩ := List.any_eq_true.mp hc
      exact h p hp (by simpa using hpid)
    simp [createProject, ha]

/-- C9 (witness): creating a fresh project at an empty store succeeds
with the seeded context, and creating it again fails. -/
theorem createProject_spec_witness :
    (∃ db2, createProject DB.empty "p1" "Acme DD" "Acme" sampleDoc = .ok db2 ∧
      (∀ p ∈ db2.projects, p.id = "p1") ∧
      createProject db2 "p1" "Acme DD" "Acme" sampleDoc =
        .error "UNIQUE constraint failed: projects.id") := by
  refine ⟨_, (createProject_spec DB.empty "p1" "Acme DD" "Acme" sampleDoc).2
    (by decide), by decide, ?_⟩
  apply (createProject_spec _ "p1" "Acme DD" "Acme" sampleDoc).1
  exact ⟨{ id := "p1", name := "Acme DD", targetCompany := "Acme",
           status := "pending", scopingDocument := sampleDoc }, by simp, rfl⟩

/-! ## Claim C10: addCompletedTask -/

/-- C10: for an existing project, `addCompletedTask` appends the
description to the completed-task list and drops every pending-task entry
exactly equal to it, leaving the target company, key questions and
discovered insights (and every other table, and other projects'
contexts) unchanged; for a missing project id it is a silent no-op. -/
theorem addCompletedTask_spec (db : DB) (pid task : String) :
    (∀ c : ContextRow, getSharedContext db pid = some c →
      getSharedContext (addCompletedTask db pid task) pid =
          some { c with
                 projectId := pid,
                 completedTasks := c.completedTasks ++ [task],
                 pendingTasks := c.pendingTasks.filter (fun t => t ≠ task) } ∧
        ∀ other : String, ¬ other = pid →
          getSharedContext (addCompletedTask db pid task) other =
            getSharedContext db other) ∧
    ((addCompletedTask db pid task).projects = db.projects ∧
     (addCompletedTask db pid task).findings = db.findings ∧
     (addCompletedTask db pid task).sources = db.sources ∧
     (addCompletedTask db pid task).memories = db.memories) ∧
    (getSharedContext db pid = none → addCompletedTask db pid task = db) := by
  refine ⟨?_, ?_, ?_⟩
  · intro c hc
    rw [getSharedContext] at hc
    constructor
    · simp only [addCompletedTask, updateSharedContext, getSharedContext, hc]
      exact find?_update_project pid _ rfl db.contexts c hc
    · intro other hother
      simp only [addCompletedTask, updateSharedContext, getSharedContext, hc]
      exact find?_update_project_other pid other hother _ rfl db.contexts
  · rcases hc : getSharedContext db pid with _ | c <;>
      simp [addCompletedTask, hc, updateSharedContext]
  · intro h
    simp [addCompletedTask, h]

/-- C10 (witness): the frame theorem at a concrete context row: "taskA"
moves from pending to completed, everything else stays. -/
theorem addCompletedTask_spec_witness :
    getSharedContext (addCompletedTask dbOneContext "p1" "taskA") "p1" =
      some { projectId := "p1", targetCompany := "Acme", keyQuestions := [],
             completedTasks := ["done0", "taskA"], pendingTasks := ["pend1"],
             discoveredInsights := ["i1"] } := by
  have h := ((addCompletedTask_spec dbOneContext "p1" "taskA").1
    sampleContext rfl).1
  simpa [sampleContext] using h

end AgentDBClient

/-! ## Research orchestrator (src/src/agents/orchestrator.ts) -/

namespace ResearchOrchestrator

/-- `AgentContext` (base-agent contract), the execution context built by
`planResearch` (orchestrator.ts lines 162-168, 180-184, 194-198). -/
structure AgentContext where
  projectId : String
  targetCompany : String
  questionId : Option String := none
  question : Option String := none
  additionalContext : Option String := none
  deriving DecidableEq, Repr

/-- `TaskDefinition` (orchestrator.ts lines 25-31). The `uuidv4()` task
ids only serve as unique keys of the `runningTasks` set (modelled in the
`Scheduler` section); no other modelled behavior reads them, and the
planner below leaves them empty. -/
structure TaskDefinition where
  id : String
  agentType : String
  context : AgentContext
  priority : Nat
  dependencies : List String
  deriving DecidableEq, Repr

/-- `AgentStatus` (part_004 lines 95-105), restricted to the fields the
orchestrator mutates; the display name, progress/token counters and
startedAt/completedAt timestamps are not consulted by any claim. -/
structure AgentStatus where
  type : String
  status : String
  currentTask : Option String
  deriving DecidableEq, Repr

/-- The agent result envelope (`AgentResult` of the base-agent
contract). -/
structure AgentResult where
  success : Bool
  findings : List ResearchFinding
  sources : List Source
  insights : List String
  tokensUsed : Nat
  error : Option String := none
  deriving DecidableEq, Repr

/-- Outcome of one agent invocation: a result envelope, or a thrown
exception carrying its message. -/
inductive AgentOutcome where
  | ok (r : AgentResult)
  | exn (msg : String)
  deriving DecidableEq, Repr

/-- An agent behavior: given the task and the shared store, produce an
outcome and the store as the agent leaves it. The orchestration core
treats the agent as a black box whose only permitted side effects are
writes through the store. -/
def AgentBehavior : Type :=
  TaskDefinition → AgentDBClient.DB → AgentOutcome × AgentDBClient.DB

/-- `ResearchProject` (part_004 lines 76-93) restricted to the fields the
orchestrator mutates. `report` holds the content of the final-report
finding (the JSON parse / fallback shaping of lines 270-291 is not
modelled; no claim reads the report body). `trace` is a modelling
artifact: the list of `(status, progress)` pairs passed to
`updateProjectStatus` — the payloads of the emitted `project:updated`
events — where the source keeps only the latest value. -/
structure Project where
  id : String
  scopingDocument : ScopingDocument
  status : ResearchStatus
  progress : Nat
  currentPhase : String
  agents : List AgentStatus
  findings : List ResearchFinding
  report : Option String
  errors : List ResearchError
  totalTokensUsed : Nat
  totalSources : Nat
  trace : List (ResearchStatus × Nat)
  deriving DecidableEq, Repr

/-- The orchestrator state threaded through a workflow run: the in-memory
project, the shared store, and the planned queue (`this.taskQueue`). -/
structure WState where
  project : Project
  db : AgentDBClient.DB
  taskQueue : List TaskDefinition
  deriving DecidableEq, Repr

/-- The keys of the agent registry (`initializeAgents`, lines 68-74). -/
def registeredAgentTypes : List String :=
  ["web_researcher", "financial_analyst", "competitive_intelligence",
   "report_generator"]

/-- `createAgentStatuses` (lines 466-473). -/
def createAgentStatuses : List AgentStatus :=
  [{ type := "web_researcher", status := "idle", currentTask := none },
   { type := "financial_analyst", status := "idle", currentTask := none },
   { type := "competitive_intelligence", status := "idle", currentTask := none },
   { type := "report_generator", status := "idle", currentTask := none }]

/-- `determineAgentsForQuestion` (lines 434-448):
`categoryAgentMap[question.category] || ['web_researcher']`. -/
def determineAgentsForQuestion (question : KeyQuestion) : List String :=
  match question.category with
  | "financial" => ["financial_analyst", "web_researcher"]
  | "competitive" => ["competitive_intelligence", "web_researcher"]
  | "market" => ["competitive_intelligence", "web_researcher"]
  | "leadership" => ["web_researcher"]
  | "technology" => ["web_researcher", "competitive_intelligence"]
  | "legal" => ["web_researcher"]
  | "operational" => ["web_researcher", "financial_analyst"]
  | "reputation" => ["web_researcher"]
  | "custom" => ["web_researcher"]
  | _ => ["web_researcher"]

/-- `questionPriorityToNumber` (lines 453-461):
`priorityMap[priority] || 2`. -/
def questionPriorityToNumber (priority : String) : Nat :=
  match priority with
  | "critical" => 4
  | "high" => 3
  | "medium" => 2
  | "low" => 1
  | _ => 2

/-- The per-question loop of `planResearch` (lines 154-173): one task per
applicable agent type per key question, in question order. -/
def questionTasks (projectId targetName : String) :
    List KeyQuestion → List TaskDefinition
  | [] => []
  | q :: qs =>
    ((determineAgentsForQuestion q).map (fun agentType =>
      { id := "",
        agentType := agentType,
        context :=
          { projectId := projectId, targetCompany := targetName,
            questionId := some q.id, question := some q.question,
            additionalContext := q.subQuestions.map (String.intercalate "; ") },
        priority := questionPriorityToNumber q.priority,
        dependencies := [] })) ++ questionTasks projectId targetName qs

/-- The supplementary whole-project tasks of `planResearch`
(lines 176-202), pushed when the corresponding data-source flag is
enabled. -/
def supplementaryTasks (projectId targetName : String)
    (dataSources : DataSources) : List TaskDefinition :=
  (if dataSources.webSearch then
    [{ id := "", agentType := "web_researcher",
       context :=
         { projectId := projectId, targetCompany := targetName,
           question := some ("General company research and background on " ++
             targetName) },
       priority := 2, dependencies := [] }]
   else []) ++
  (if dataSources.financialReports then
    [{ id := "", agentType := "financial_analyst",
       context :=
         { projectId := projectId, targetCompany := targetName,
           question := some ("Financial overview and health assessment of " ++
             targetName) },
       priority := 2, dependencies := [] }]
   else [])

/-- The full planned task list of `planResearch`, in planning order. -/
def planTasks (projectId : String) (doc : ScopingDocument) : List TaskDefinition :=
  questionTasks projectId doc.targetCompany.name doc.keyQuestions ++
    supplementaryTasks projectId doc.targetCompany.name doc.dataSources

/-- `updateProjectStatus` (lines 478-493): sets status, progress and
phase label and emits a `project:updated` event — appended to `trace`. -/
def updateProjectStatus (s : WState) (status : ResearchStatus) (progress : Nat)
    (phase : String) : WState :=
  { s with project :=
      { s.project with
        status := status, progress := progress, currentPhase := phase,
        trace := s.project.trace ++ [(status, progress)] } }

/-- The mutation of `updateAgentStatus` (lines 498-514) on the agent
list: `project.agents.find(a => a.type === agentType)` mutates the first
matching record. -/
def updateAgentStatusList (agents : List AgentStatus) (agentType status : String)
    (task : Option String) : List AgentStatus :=
  match agents with
  | [] => []
  | a :: rest =>
    if a.type == agentType then
      { a with status := status, currentTask := task } :: rest
    else a :: updateAgentStatusList rest agentType status task

/-- `updateAgentStatus` (lines 498-514); the startedAt/completedAt
timestamps are not modelled. -/
def updateAgentStatus (s : WState) (agentType status : String)
    (task : Option String) : WState :=
  { s with project :=
      { s.project with
        agents := updateAgentStatusList s.project.agents agentType status task } }

/-- `planResearch` (lines 147-212): set 5%, build the task list, persist
the pending-task descriptions (`` `${t.agentType}: ${t.context.question}` ``,
where an undefined question prints as "undefined"), sort the queue by
descending priority (stable JavaScript sort), set 10%. -/
def planResearch (s : WState) : WState :=
  let s1 := updateProjectStatus s .initializing 5 "Planning research strategy"
  let tasks := planTasks s1.project.id s1.project.scopingDocument
  let pendingTasks := tasks.map
    (fun t => t.agentType ++ ": " ++ t.context.question.getD "undefined")
  let s2 := { s1 with db :=
    (AgentDBClient.updateSharedContext s1.db s1.project.id
      { pendingTasks := some pendingTasks }) }
  let s3 := { s2 with taskQueue := sortDescBy (fun t => t.priority) tasks }
  updateProjectStatus s3 .researching 10 "Research plan created"

/-- `executeTask` (lines 373-429). An unknown agent type throws before
any status update; otherwise the agent is marked active
(`task.context.question || 'Processing'`), invoked, and on a result
envelope either the findings and token usage are merged (success) or a
recoverable error entry is recorded (failure; `agent.agentId` is modelled
by the agent type key); a thrown exception only marks the agent errored
and is rethrown — it records no project error entry here. -/
def executeTask (beh : AgentBehavior) (s : WState) (t : TaskDefinition) :
    WState × Option String :=
  if ¬ registeredAgentTypes.contains t.agentType then
    (s, some ("Unknown agent type: " ++ t.agentType))
  else
    let s1 := updateAgentStatus s t.agentType "active"
      (some (orTruthyOpt t.context.question "Processing"))
    match beh t s1.db with
    | (.ok r, db1) =>
      let s2 := { s1 with db := db1 }
      if r.success then
        let s3 := { s2 with project :=
          { s2.project with
            findings := s2.project.findings ++ r.findings,
            totalTokensUsed := s2.project.totalTokensUsed + r.tokensUsed } }
        (updateAgentStatus s3 t.agentType "completed" none, none)
      else
        let s3 := { s2 with project :=
          { s2.project with
            errors := s2.project.errors ++
              [{ agentId := some t.agentType, type := "internal",
                 message := orTruthyOpt r.error "Unknown error",
                 recoverable := true }] } }
        (updateAgentStatus s3 t.agentType "error" r.error, none)
    | (.exn msg, db1) =>
      (updateAgentStatus { s1 with db := db1 } t.agentType "error" (some msg),
        some msg)

/-- `executeTaskBatch` (lines 330-368), sequential model of the dispatch
loop: every task of the batch is dispatched and runs to completion — the
loop awaits only slot availability, and `Promise.all` is awaited after
the loop — and the batch outcome is the first rejection when one exists
(`Promise.all` rejects with it) and `none` otherwise. The `runningTasks`
admission control bounds concurrency but does not change which tasks run
or what they write; it is modelled by the `Scheduler` step relation. -/
def executeTaskBatch (beh : AgentBehavior) (s : WState) :
    List TaskDefinition → WState × Option String
  | [] => (s, none)
  | t :: ts =>
    let r1 := executeTask beh s t
    let r2 := executeTaskBatch beh r1.1 ts
    (r2.1, r1.2 <|> r2.2)

/-- `executePrimaryResearch` (lines 217-229): 15%, run the batch of
dependency-free web-researcher tasks, 40% (skipped when the batch
rejects — the `await` rethrows). -/
def executePrimaryResearch (beh : AgentBehavior) (s : WState) :
    WState × Option String :=
  let s1 := updateProjectStatus s .researching 15 "Executing primary research"
  let primaryTasks := s1.taskQueue.filter
    (fun t => t.agentType == "web_researcher" && t.dependencies.isEmpty)
  let r := executeTaskBatch beh s1 primaryTasks
  match r.2 with
  | some m => (r.1, some m)
  | none => (updateProjectStatus r.1 .researching 40 "Primary research completed",
      none)

/-- `executeDeepAnalysis` (lines 234-248): 45%, run the batch of
financial-analyst and competitive-intelligence tasks, 70%. -/
def executeDeepAnalysis (beh : AgentBehavior) (s : WState) :
    WState × Option String :=
  let s1 := updateProjectStatus s .analyzing 45 "Executing deep analysis"
  let analysisTasks := s1.taskQueue.filter
    (fun t => t.agentType == "financial_analyst" ||
      t.agentType == "competitive_intelligence")
  let r := executeTaskBatch beh s1 analysisTasks
  match r.2 with
  | some m => (r.1, some m)
  | none => (updateProjectStatus r.1 .analyzing 70 "Deep analysis completed",
      none)

/-- The context of the single report-agent invocation (lines 261-264):
project id and target company only, no question. -/
def reportTask (s : WState) : TaskDefinition :=
  { id := "", agentType := "report_generator",
    context := { projectId := s.project.id,
                 targetCompany := s.project.scopingDocument.targetCompany.name },
    priority := 0, dependencies := [] }

/-- `generateReport` (lines 253-301): 75%, invoke the report agent once
outside the batch path; on success store the final-report finding content
as the report and mark the agent completed, on failure mark it errored
(`result.error || 'Unknown error'`); 90% either way. A thrown exception
propagates (no catch in this phase). -/
def generateReport (beh : AgentBehavior) (s : WState) : WState × Option String :=
  let s1 := updateProjectStatus s .synthesizing 75 "Generating research report"
  let s2 := updateAgentStatus s1 "report_generator" "active"
    (some "Generating final report")
  match beh (reportTask s2) s2.db with
  | (.exn msg, db1) => ({ s2 with db := db1 }, some msg)
  | (.ok r, db1) =>
    let s3 := { s2 with db := db1 }
    let s4 :=
      if r.success then
        let s5 :=
          match r.findings.find? (fun f => f.category == "final_report") with
          | some reportFinding =>
            { s3 with project :=
              { s3.project with report := some reportFinding.content } }
          | none => s3
        updateAgentStatus s5 "report_generator" "completed" none
      else
        updateAgentStatus s3 "report_generator" "error"
          (some (orTruthyOpt r.error "Unknown error"))
    (updateProjectStatus s4 .synthesizing 90 "Report generated", none)

/-- `finalizeProject` (lines 306-325): 95%, re-fetch the authoritative
findings and sources from the store, stamp the source count, persist the
completed status, clean expired memories, 100%. The completedAt
timestamp is not modelled. -/
def finalizeProject (s : WState) : WState × Option String :=
  let s1 := updateProjectStatus s .reviewing 95 "Finalizing project"
  let findings := AgentDBClient.getFindings s1.db s1.project.id none
  let sources := AgentDBClient.getSources s1.db s1.project.id
  let s2 := { s1 with project :=
    { s1.project with findings := findings, totalSources := sources.length } }
  let db1 := AgentDBClient.updateProjectStatus s2.db s2.project.id "completed"
  let db2 := (AgentDBClient.cleanExpiredMemories db1).2
  let s3 := { s2 with db := db2 }
  (updateProjectStatus s3 .completed 100 "Research completed", none)

/-- `handleProjectError` (lines 519-534): set status failed directly (no
`project:updated` emission — only `project:failed`, so no trace entry),
record a non-recoverable error, persist the failed status. -/
def handleProjectError (s : WState) (msg : String) : WState :=
  { s with
    project := { s.project with
      status := .failed,
      errors := s.project.errors ++
        [{ agentId := none, type := "internal", message := msg,
           recoverable := false }] },
    db := AgentDBClient.updateProjectStatus s.db s.project.id "failed" }

/-- The five awaited phases of `executeWorkflow` (lines 123-142) before
its catch: the state after the last completed phase plus the first
escaped exception, if any. -/
def runPhases (beh : AgentBehavior) (s : WState) : WState × Option String :=
  let s1 := planResearch s
  let r2 := executePrimaryResearch beh s1
  match r2.2 with
  | some m => (r2.1, some m)
  | none =>
    let r3 := executeDeepAnalysis beh r2.1
    match r3.2 with
    | some m => (r3.1, some m)
    | none =>
      let r4 := generateReport beh r3.1
      match r4.2 with
      | some m => (r4.1, some m)
      | none => finalizeProject r4.1

/-- `executeWorkflow` (lines 123-142): the phase sequence with its
`catch` handler. -/
def executeWorkflow (beh : AgentBehavior) (s : WState) : WState :=
  match runPhases beh s with
  | (s2, none) => s2
  | (s2, some msg) => handleProjectError s2 msg

/-- `pauseProject` (lines 573-580) acting on an existing active project:
permitted only while the status is neither completed nor failed; sets the
in-memory and stored status to paused (this path emits `project:updated`
without a progress value and bypasses `updateProjectStatus`, so it leaves
the trace untouched). -/
def pauseProject (s : WState) : WState :=
  if ¬ s.project.status = .completed ∧ ¬ s.project.status = .failed then
    { s with
      project := { s.project with status := .paused },
      db := AgentDBClient.updateProjectStatus s.db s.project.id "paused" }
  else s

/-- The initial in-memory project built by `startProject`
(lines 91-107). -/
def initialProject (projectId : String) (doc : ScopingDocument) : Project :=
  { id := projectId, scopingDocument := doc, status := .initializing,
    progress := 0, currentPhase := "Initializing research workflow",
    agents := createAgentStatuses, findings := [], report := none,
    errors := [], totalTokensUsed := 0, totalSources := 0, trace := [] }

/-- The orchestrator state at the start of `executeWorkflow`, for a store
`db` (populated by `startProject` via `createProject`). -/
def startState (projectId : String) (doc : ScopingDocument)
    (db : AgentDBClient.DB) : WState :=
  { project := initialProject projectId doc, db := db, taskQueue := [] }

/-! ## Claim C3: planning task count -/

theorem determineAgentsForQuestion_length (q : KeyQuestion) :
    1 ≤ (determineAgentsForQuestion q).length ∧
      (determineAgentsForQuestion q).length ≤ 2 := by
  unfold determineAgentsForQuestion
  split <;> simp

theorem questionTasks_length (projectId targetName : String) :
    ∀ qs : List KeyQuestion,
      qs.length ≤ (questionTasks projectId targetName qs).length ∧
        (questionTasks projectId targetName qs).length ≤ 2 * qs.length := by
  intro qs
  induction qs with
  | nil => simp [questionTasks]
  | cons q qs ih =>
    have hq := determineAgentsForQuestion_length q
    simp only [questionTasks, List.length_append, List.length_map,
      List.length_cons]
    omega

/-- C3: for every scoping input with all data-source flags enabled, the
planned task list has at least one task per key question and at most two
per question (the category lookup maps each question to one or two agent
types) plus the two supplementary whole-project tasks: N ≤ length ≤
N×2+2. -/
theorem planResearch_task_count (projectId : String) (doc : ScopingDocument)
    (hweb : doc.dataSources.webSearch = true)
    (hnews : doc.dataSources.newsArticles = true)
    (hfin : doc.dataSources.financialReports = true)
    (hsoc : doc.dataSources.socialMedia = true)
    (hpat : doc.dataSources.patents = true)
    (hcourt : doc.dataSources.courtRecords = true) :
    doc.keyQuestions.length ≤ (planTasks projectId doc).length ∧
      (planTasks projectId doc).length ≤ 2 * doc.keyQuestions.length + 2 := by
  have hq := questionTasks_length projectId doc.targetCompany.name
    doc.keyQuestions
  have hsupp : (supplementaryTasks projectId doc.targetCompany.name
      doc.dataSources).length = 2 := by
    simp [supplementaryTasks, hweb, hfin]
  simp only [planTasks, List.length_append, hsupp]
  omega

/-- C3 (witness): the bound at a concrete scoping document with one key
question and all flags enabled. -/
theorem planResearch_task_count_witness :
    AgentDBClient.sampleDoc.keyQuestions.length ≤
        (planTasks "p1" AgentDBClient.sampleDoc).length ∧
      (planTasks "p1" AgentDBClient.sampleDoc).length ≤
        2 * AgentDBClient.sampleDoc.keyQuestions.length + 2 :=
  planResearch_task_count "p1" AgentDBClient.sampleDoc rfl rfl rfl rfl rfl rfl

/-! ## Claim C4: priorities and queue order -/

theorem questionTasks_mem (projectId targetName : String) :
    ∀ (qs : List KeyQuestion) (t : TaskDefinition),
      t ∈ questionTasks projectId targetName qs →
      ∃ q ∈ qs, t.context.questionId = some q.id ∧
        t.priority = questionPriorityToNumber q.priority := by
  intro qs
  induction qs with
  | nil => intro t ht; simp [questionTasks] at ht
  | cons q qs ih =>
    intro t ht
    rw [questionTasks, List.mem_append] at ht
    rcases ht with hmap | hrest
    · obtain ⟨a, _, rfl⟩ := List.mem_map.mp hmap
      exact ⟨q, List.mem_cons_self q qs, rfl, rfl⟩
    · obtain ⟨q2, hq2, h1, h2⟩ := ih t hrest
      exact ⟨q2, List.mem_cons_of_mem q hq2, h1, h2⟩

theorem supplementaryTasks_mem (projectId targetName : String)
    (ds : DataSources) :
    ∀ t ∈ supplementaryTasks projectId targetName ds,
      t.context.questionId = none ∧ t.priority = 2 := by
  intro t ht
  rw [supplementaryTasks, List.mem_append] at ht
  rcases ht with h | h
  · cases hw : ds.webSearch
    · rw [hw] at h; simp at h
    · rw [hw] at h
      simp at h
      subst h
      exact ⟨rfl, rfl⟩
  · cases hf : ds.financialReports
    · rw [hf] at h; simp at h
    · rw [hf] at h
      simp at h
      subst h
      exact ⟨rfl, rfl⟩

/-- C4: the priority map sends critical to 4, high to 3, medium to 2 and
low to 1, with the default 2 for an unspecified or unrecognized tier;
every planned task carries the numeric priority of its question tier
(the supplementary tasks have no question id and carry the default 2);
and the queue built by planResearch is the planned list sorted by
descending priority, with equal priorities kept in first-planned order
(the per-priority sublists of the queue equal those of the planned
list). -/
theorem planned_priorities_sorted_stable (s : WState) :
    (questionPriorityToNumber "critical" = 4 ∧
     questionPriorityToNumber "high" = 3 ∧
     questionPriorityToNumber "medium" = 2 ∧
     questionPriorityToNumber "low" = 1 ∧
     ∀ p : String, p ∉ (["critical", "high", "medium", "low"] : List String) →
       questionPriorityToNumber p = 2) ∧
    (∀ t ∈ planTasks s.project.id s.project.scopingDocument,
      (∃ q ∈ s.project.scopingDocument.keyQuestions,
          t.context.questionId = some q.id ∧
          t.priority = questionPriorityToNumber q.priority) ∨
        (t.context.questionId = none ∧ t.priority = 2)) ∧
    ((planResearch s).taskQueue =
      sortDescBy (fun t => t.priority)
        (planTasks s.project.id s.project.scopingDocument)) ∧
    SortedDescBy (fun t => t.priority) ((planResearch s).taskQueue) ∧
    (∀ p : Nat, (planResearch s).taskQueue.filter (fun t => t.priority = p) =
      (planTasks s.project.id s.project.scopingDocument).filter
        (fun t => t.priority = p)) := by
  refine ⟨⟨rfl, rfl, rfl, rfl, ?_⟩, ?_, rfl, ?_, ?_⟩
  · intro p hp
    unfold questionPriorityToNumber
    split <;> simp_all
  · intro t ht
    rw [planTasks, List.mem_append] at ht
    rcases ht with h | h
    · obtain ⟨q, hq, h1, h2⟩ := questionTasks_mem _ _ _ t h
      exact Or.inl ⟨q, hq, h1, h2⟩
    · exact Or.inr (supplementaryTasks_mem _ _ _ t h)
  · exact sortDescBy_sorted (fun t => t.priority)
      (planTasks s.project.id s.project.scopingDocument)
  · intro p
    exact sortDescBy_filter (fun t => t.priority) p
      (planTasks s.project.id s.project.scopingDocument)

/-- C4 (witness): the order facts at a concrete scoping document. -/
theorem planned_priorities_sorted_stable_witness :
    SortedDescBy (fun t => t.priority)
      ((planResearch (startState "p1" AgentDBClient.sampleDoc
        AgentDBClient.DB.empty)).taskQueue) :=
  (planned_priorities_sorted_stable (startState "p1" AgentDBClient.sampleDoc
    AgentDBClient.DB.empty)).2.2.2.1


/-! ## Claim C5: progress checkpoints -/

/-- An agent behavior that never throws: every invocation returns a
result envelope (possibly `success = false`). -/
def NeverThrows (beh : AgentBehavior) : Prop :=
  ∀ t db, ∃ r, (beh t db).1 = AgentOutcome.ok r

/-- A single task execution never emits a `project:updated` event:
`executeTask` touches agent statuses, findings, errors and tokens, but
not the project status/progress trace. -/
theorem executeTask_trace (beh : AgentBehavior) (s : WState)
    (t : TaskDefinition) :
    (executeTask beh s t).1.project.trace = s.project.trace := by
  simp only [executeTask]
  split
  · rfl
  · split
    · split <;> simp [updateAgentStatus]
    · simp [updateAgentStatus]

theorem executeTaskBatch_trace (beh : AgentBehavior) :
    ∀ (ts : List TaskDefinition) (s : WState),
      (executeTaskBatch beh s ts).1.project.trace = s.project.trace := by
  intro ts
  induction ts with
  | nil => intro s; rfl
  | cons t ts ih =>
    intro s
    rw [executeTaskBatch]
    show (executeTaskBatch beh (executeTask beh s t).1 ts).1.project.trace = _
    rw [ih, executeTask_trace]

/-- A registered task run by a never-throwing behavior resolves. -/
theorem executeTask_ok (beh : AgentBehavior) (hbeh : NeverThrows beh)
    (s : WState) (t : TaskDefinition)
    (hreg : registeredAgentTypes.contains t.agentType = true) :
    (executeTask beh s t).2 = none := by
  obtain ⟨r, hr⟩ := hbeh t (updateAgentStatus s t.agentType "active"
    (some (orTruthyOpt t.context.question "Processing"))).db
  rcases hbX : beh t (updateAgentStatus s t.agentType "active"
    (some (orTruthyOpt t.context.question "Processing"))).db with ⟨o, db1⟩
  rw [hbX] at hr
  simp only at hr
  subst hr
  simp only [executeTask, hbX]
  rw [if_neg (not_not_intro hreg)]
  rcases hrs : r.success <;> simp [hrs]

theorem executeTaskBatch_ok (beh : AgentBehavior) (hbeh : NeverThrows beh) :
    ∀ (ts : List TaskDefinition) (s : WState),
      (∀ t ∈ ts, registeredAgentTypes.contains t.agentType = true) →
      (executeTaskBatch beh s ts).2 = none := by
  intro ts
  induction ts with
  | nil => intro s _; rfl
  | cons t ts ih =>
    intro s hreg
    rw [executeTaskBatch]
    show ((executeTask beh s t).2 <|>
      (executeTaskBatch beh (executeTask beh s t).1 ts).2) = none
    rw [executeTask_ok beh hbeh s t (hreg t (List.mem_cons_self t ts)),
      ih _ (fun u hu => hreg u (List.mem_cons_of_mem t hu))]
    rfl

theorem primary_filter_registered (queue : List TaskDefinition) :
    ∀ t ∈ queue.filter
        (fun t => t.agentType == "web_researcher" && t.dependencies.isEmpty),
      registeredAgentTypes.contains t.agentType = true := by
  intro t ht
  have hp := List.of_mem_filter ht
  rw [Bool.and_eq_true] at hp
  have h1 : t.agentType = "web_researcher" := by simpa using hp.1
  rw [h1]
  rfl

theorem analysis_filter_registered (queue : List TaskDefinition) :
    ∀ t ∈ queue.filter
        (fun t => t.agentType == "financial_analyst" ||
          t.agentType == "competitive_intelligence"),
      registeredAgentTypes.contains t.agentType = true := by
  intro t ht
  have hp := List.of_mem_filter ht
  rw [Bool.or_eq_true] at hp
  rcases hp with h | h
  · rw [show t.agentType = "financial_analyst" by simpa using h]
    rfl
  · rw [show t.agentType = "competitive_intelligence" by simpa using h]
    rfl

theorem planResearch_trace (s : WState) :
    (planResearch s).project.trace =
      s.project.trace ++ [(.initializing, 5), (.researching, 10)] := by
  simp [planResearch, updateProjectStatus]

theorem executePrimaryResearch_spec (beh : AgentBehavior)
    (hbeh : NeverThrows beh) (s : WState) :
    (executePrimaryResearch beh s).2 = none ∧
      (executePrimaryResearch beh s).1.project.trace =
        s.project.trace ++ [(.researching, 15), (.researching, 40)] := by
  have hno := executeTaskBatch_ok beh hbeh
    ((updateProjectStatus s .researching 15 "Executing primary research").taskQueue.filter
      (fun t => t.agentType == "web_researcher" && t.dependencies.isEmpty))
    (updateProjectStatus s .researching 15 "Executing primary research")
    (primary_filter_registered _)
  simp only [executePrimaryResearch, hno]
  refine ⟨by trivial, ?_⟩
  simp [updateProjectStatus, executeTaskBatch_trace]

theorem executeDeepAnalysis_spec (beh : AgentBehavior)
    (hbeh : NeverThrows beh) (s : WState) :
    (executeDeepAnalysis beh s).2 = none ∧
      (executeDeepAnalysis beh s).1.project.trace =
        s.project.trace ++ [(.analyzing, 45), (.analyzing, 70)] := by
  have hno := executeTaskBatch_ok beh hbeh
    ((updateProjectStatus s .analyzing 45 "Executing deep analysis").taskQueue.filter
      (fun t => t.agentType == "financial_analyst" ||
        t.agentType == "competitive_intelligence"))
    (updateProjectStatus s .analyzing 45 "Executing deep analysis")
    (analysis_filter_registered _)
  simp only [executeDeepAnalysis, hno]
  refine ⟨by trivial, ?_⟩
  simp [updateProjectStatus, executeTaskBatch_trace]

theorem generateReport_spec (beh : AgentBehavior) (hbeh : NeverThrows beh)
    (s : WState) :
    (generateReport beh s).2 = none ∧
      (generateReport beh s).1.project.trace =
        s.project.trace ++ [(.synthesizing, 75), (.synthesizing, 90)] := by
  simp only [generateReport]
  set s2 := updateAgentStatus
    (updateProjectStatus s .synthesizing 75 "Generating research report")
    "report_generator" "active" (some "Generating final report") with hs2
  obtain ⟨r, hr⟩ := hbeh (reportTask s2) s2.db
  rcases hbX : beh (reportTask s2) s2.db with ⟨o, db1⟩
  rw [hbX] at hr
  simp only at hr
  subst hr
  refine ⟨rfl, ?_⟩
  rcases hrs : r.success
  · simp [hrs, updateProjectStatus, updateAgentStatus, hs2]
  · rcases hf : r.findings.find? (fun f => f.category == "final_report") with _ | f <;>
      simp [hrs, hf, updateProjectStatus, updateAgentStatus, hs2]

theorem finalizeProject_spec (s : WState) :
    (finalizeProject s).2 = none ∧
      (finalizeProject s).1.project.trace =
        s.project.trace ++ [(.reviewing, 95), (.completed, 100)] := by
  refine ⟨rfl, ?_⟩
  simp [finalizeProject, updateProjectStatus]

/-- The full `(status, progress)` checkpoint sequence of a run in which
all five phases complete. -/
def workflowTrace : List (ResearchStatus × Nat) :=
  [(.initializing, 5), (.researching, 10), (.researching, 15),
   (.researching, 40), (.analyzing, 45), (.analyzing, 70),
   (.synthesizing, 75), (.synthesizing, 90), (.reviewing, 95),
   (.completed, 100)]

theorem runPhases_spec (beh : AgentBehavior) (hbeh : NeverThrows beh)
    (s : WState) :
    (runPhases beh s).2 = none ∧
      (runPhases beh s).1.project.trace = s.project.trace ++ workflowTrace := by
  obtain ⟨h2, t2⟩ := executePrimaryResearch_spec beh hbeh (planResearch s)
  obtain ⟨h3, t3⟩ := executeDeepAnalysis_spec beh hbeh
    (executePrimaryResearch beh (planResearch s)).1
  obtain ⟨h4, t4⟩ := generateReport_spec beh hbeh
    (executeDeepAnalysis beh (executePrimaryResearch beh (planResearch s)).1).1
  obtain ⟨h5, t5⟩ := finalizeProject_spec
    (generateReport beh
      (executeDeepAnalysis beh
        (executePrimaryResearch beh (planResearch s)).1).1).1
  simp only [runPhases, h2, h3, h4]
  refine ⟨h5, ?_⟩
  rw [t5, t4, t3, t2, planResearch_trace]
  simp [workflowTrace]

/-- C5: in every run in which the five phases complete without an
exception (every agent invocation returns a result envelope), the
sequence of progress values set at the phase boundaries is exactly
5, 10, 15, 40, 45, 70, 75, 90, 95, 100: monotonically non-decreasing,
ending at 100 at finalization, and passing through the checkpoints
5, 10, 40, 70, 90, 100. -/
theorem workflow_progress_monotone (beh : AgentBehavior)
    (hbeh : NeverThrows beh) (s : WState) (hs : s.project.trace = []) :
    (executeWorkflow beh s).project.trace.map Prod.snd =
        [5, 10, 15, 40, 45, 70, 75, 90, 95, 100] ∧
      List.Chain' (· ≤ ·) ((executeWorkflow beh s).project.trace.map Prod.snd) ∧
      ((executeWorkflow beh s).project.trace.map Prod.snd).getLast? =
        some 100 ∧
      [5, 10, 40, 70, 90, 100].Sublist
        ((executeWorkflow beh s).project.trace.map Prod.snd) := by
  obtain ⟨h, ht⟩ := runPhases_spec beh hbeh s
  have hw : executeWorkflow beh s = (runPhases beh s).1 := by
    rw [executeWorkflow]
    rcases hr : runPhases beh s with ⟨s2, e⟩
    rw [hr] at h
    simp only at h
    subst h
    rfl
  rw [hw, ht, hs]
  refine ⟨rfl, ?_, by decide, by decide⟩
  simp [workflowTrace, List.chain'_cons]

/-- The always-succeeding agent behavior with an empty envelope. -/
def behOk : AgentBehavior := fun _ db =>
  (.ok { success := true, findings := [], sources := [], insights := [],
         tokensUsed := 0, error := none }, db)

theorem behOk_never_throws : NeverThrows behOk := fun _ _ => ⟨_, rfl⟩

/-- C5 (witness): a full run on a concrete scoping document with an
always-succeeding behavior produces exactly the checkpoint sequence. -/
theorem workflow_progress_monotone_witness :
    (executeWorkflow behOk (startState "p1" AgentDBClient.sampleDoc
        AgentDBClient.DB.empty)).project.trace.map Prod.snd =
      [5, 10, 15, 40, 45, 70, 75, 90, 95, 100] :=
  (workflow_progress_monotone behOk behOk_never_throws
    (startState "p1" AgentDBClient.sampleDoc AgentDBClient.DB.empty) rfl).1


/-! ## Claim C1: task failure handling -/

/-- The dispatch loop runs every task of the batch, rejection or not: the
final state is the left fold of single-task execution over the whole
batch (the loop awaits only slot availability; `Promise.all` is awaited
after every task has been dispatched). -/
theorem executeTaskBatch_runs_all (beh : AgentBehavior) :
    ∀ (ts : List TaskDefinition) (s : WState),
      (executeTaskBatch beh s ts).1 =
        ts.foldl (fun st t => (executeTask beh st t).1) s := by
  intro ts
  induction ts with
  | nil => intro s; rfl
  | cons t ts ih =>
    intro s
    exact ih (executeTask beh s t).1

/-- Single-task error accounting: a task appends at most one error entry,
always with recoverable=true (the success=false case); a task that
surfaces an exception (agent threw, or unknown agent type) appends no
task-level error entry at all. -/
theorem executeTask_errors (beh : AgentBehavior) (s : WState)
    (t : TaskDefinition) :
    ((executeTask beh s t).1.project.errors = s.project.errors ∨
      ∃ e : ResearchError, e.recoverable = true ∧
        (executeTask beh s t).1.project.errors = s.project.errors ++ [e]) ∧
    ((executeTask beh s t).2 ≠ none →
      (executeTask beh s t).1.project.errors = s.project.errors) := by
  simp only [executeTask]
  split
  · exact ⟨Or.inl rfl, fun _ => rfl⟩
  · split
    · rename_i r db1 heq
      split
      · exact ⟨Or.inl (by simp [updateAgentStatus]), fun h => absurd rfl h⟩
      · exact ⟨Or.inr ⟨{ agentId := some t.agentType,
                         type := "internal",
                         message := orTruthyOpt r.error "Unknown error",
                         recoverable := true },
            rfl, by simp [updateAgentStatus]⟩,
          fun h => absurd rfl h⟩
    · exact ⟨Or.inl (by simp [updateAgentStatus]),
        fun _ => by simp [updateAgentStatus]⟩

/-- A task whose agent returns a success=false envelope records exactly
one project error entry — with recoverable=true, the agent type as
agentId, and `result.error || 'Unknown error'` as message — and the task
itself resolves (no rejection). -/
theorem executeTask_fail_records (beh : AgentBehavior) (s : WState)
    (t : TaskDefinition) (r : AgentResult) (db1 : AgentDBClient.DB)
    (hreg : registeredAgentTypes.contains t.agentType = true)
    (hb : beh t (updateAgentStatus s t.agentType "active"
      (some (orTruthyOpt t.context.question "Processing"))).db = (.ok r, db1))
    (hfail : r.success = false) :
    (executeTask beh s t).1.project.errors = s.project.errors ++
        [{ agentId := some t.agentType,
           type := "internal",
           message := orTruthyOpt r.error "Unknown error",
           recoverable := true }] ∧
      (executeTask beh s t).2 = none := by
  simp only [executeTask, hb]
  rw [if_neg (not_not_intro hreg)]
  refine ⟨?_, ?_⟩ <;> simp [hfail, updateAgentStatus]

/-- A task whose agent invocation throws records no project error entry
and merges no findings: it only marks the agent errored, and the
exception surfaces as the rejection of the task. -/
theorem executeTask_throw_effects (beh : AgentBehavior) (s : WState)
    (t : TaskDefinition) (msg : String) (db1 : AgentDBClient.DB)
    (hreg : registeredAgentTypes.contains t.agentType = true)
    (hb : beh t (updateAgentStatus s t.agentType "active"
      (some (orTruthyOpt t.context.question "Processing"))).db =
        (.exn msg, db1)) :
    (executeTask beh s t).1.project.errors = s.project.errors ∧
      (executeTask beh s t).1.project.findings = s.project.findings ∧
      (executeTask beh s t).1.project.agents =
        updateAgentStatusList
          (updateAgentStatusList s.project.agents t.agentType "active"
            (some (orTruthyOpt t.context.question "Processing")))
          t.agentType "error" (some msg) ∧
      (executeTask beh s t).2 = some msg := by
  simp only [executeTask, hb]
  rw [if_neg (not_not_intro hreg)]
  refine ⟨?_, ?_, ?_, rfl⟩ <;> simp [updateAgentStatus]

/-- The first task-level rejection escapes the batch: when every task of
a prefix resolves and the next task rejects with `msg` at the state the
prefix produced, the whole batch rejects with `msg` (`Promise.all`
rejects with the first rejection), whatever tasks follow. -/
theorem executeTaskBatch_first_rejection (beh : AgentBehavior) :
    ∀ (ts1 : List TaskDefinition) (s : WState) (t : TaskDefinition)
      (ts2 : List TaskDefinition) (msg : String),
      (executeTaskBatch beh s ts1).2 = none →
      (executeTask beh (executeTaskBatch beh s ts1).1 t).2 = some msg →
      (executeTaskBatch beh s (ts1 ++ t :: ts2)).2 = some msg := by
  intro ts1
  induction ts1 with
  | nil =>
    intro s t ts2 msg _ ht
    have ht2 : (executeTask beh s t).2 = some msg := ht
    show ((executeTask beh s t).2 <|>
      (executeTaskBatch beh (executeTask beh s t).1 ts2).2) = some msg
    rw [ht2]
    rfl
  | cons u ts1 ih =>
    intro s t ts2 msg hpre ht
    have hu : (executeTask beh s u).2 = none := by
      rcases h1 : (executeTask beh s u).2 with _ | m
      · rfl
      · exfalso
        have hm : (executeTaskBatch beh s (u :: ts1)).2 = some m := by
          show ((executeTask beh s u).2 <|>
            (executeTaskBatch beh (executeTask beh s u).1 ts1).2) = some m
          rw [h1]
          rfl
        rw [hpre] at hm
        exact Option.noConfusion hm
    have hrest : (executeTaskBatch beh (executeTask beh s u).1 ts1).2 = none := by
      have hpre2 : ((executeTask beh s u).2 <|>
          (executeTaskBatch beh (executeTask beh s u).1 ts1).2) = none := hpre
      rw [hu] at hpre2
      simpa using hpre2
    have ht2 : (executeTask beh
        (executeTaskBatch beh (executeTask beh s u).1 ts1).1 t).2 = some msg := ht
    show ((executeTask beh s u).2 <|>
      (executeTaskBatch beh (executeTask beh s u).1 (ts1 ++ t :: ts2)).2) = some msg
    rw [hu, ih (executeTask beh s u).1 t ts2 msg hrest ht2]
    rfl

/-- C1 (amended): a task whose agent returns success=false is recorded as
exactly one project error entry with recoverable=true, the task resolves,
and the batch keeps executing its siblings — the batch always runs every
task. But a task whose agent invocation throws an exception records no
task-level error entry and merges nothing — only its agent status is set
to error — and the rejection escapes executeTaskBatch (`Promise.all`
rejects with the first rejection) while sibling tasks still execute and
merge their findings; the escaped exception is then caught at the
workflow boundary, which records it as a recoverable=false error and
fails the project. -/
theorem task_failure_semantics (beh : AgentBehavior) (s : WState) :
    (∀ ts : List TaskDefinition, (executeTaskBatch beh s ts).1 =
        ts.foldl (fun st t => (executeTask beh st t).1) s) ∧
    (∀ t : TaskDefinition,
      ((executeTask beh s t).1.project.errors = s.project.errors ∨
        ∃ e : ResearchError, e.recoverable = true ∧
          (executeTask beh s t).1.project.errors = s.project.errors ++ [e]) ∧
      ((executeTask beh s t).2 ≠ none →
        (executeTask beh s t).1.project.errors = s.project.errors)) ∧
    (∀ (t : TaskDefinition) (r : AgentResult) (db1 : AgentDBClient.DB),
      registeredAgentTypes.contains t.agentType = true →
      beh t (updateAgentStatus s t.agentType "active"
        (some (orTruthyOpt t.context.question "Processing"))).db =
          (.ok r, db1) →
      r.success = false →
      (executeTask beh s t).1.project.errors = s.project.errors ++
          [{ agentId := some t.agentType,
             type := "internal",
             message := orTruthyOpt r.error "Unknown error",
             recoverable := true }] ∧
        (executeTask beh s t).2 = none) ∧
    (∀ (t : TaskDefinition) (msg : String) (db1 : AgentDBClient.DB),
      registeredAgentTypes.contains t.agentType = true →
      beh t (updateAgentStatus s t.agentType "active"
        (some (orTruthyOpt t.context.question "Processing"))).db =
          (.exn msg, db1) →
      (executeTask beh s t).1.project.errors = s.project.errors ∧
        (executeTask beh s t).1.project.findings = s.project.findings ∧
        (executeTask beh s t).1.project.agents =
          updateAgentStatusList
            (updateAgentStatusList s.project.agents t.agentType "active"
              (some (orTruthyOpt t.context.question "Processing")))
            t.agentType "error" (some msg) ∧
        (executeTask beh s t).2 = some msg) ∧
    (∀ (ts1 : List TaskDefinition) (t : TaskDefinition)
        (ts2 : List TaskDefinition) (msg : String),
      (executeTaskBatch beh s ts1).2 = none →
      (executeTask beh (executeTaskBatch beh s ts1).1 t).2 = some msg →
      (executeTaskBatch beh s (ts1 ++ t :: ts2)).2 = some msg) ∧
    (∀ msg : String,
      (handleProjectError s msg).project.status = .failed ∧
        (handleProjectError s msg).project.errors = s.project.errors ++
          [{ agentId := none, type := "internal", message := msg,
             recoverable := false }]) ∧
    (∀ (s2 : WState) (msg : String), runPhases beh s = (s2, some msg) →
      executeWorkflow beh s = handleProjectError s2 msg) := by
  refine ⟨fun ts => executeTaskBatch_runs_all beh ts s,
    fun t => executeTask_errors beh s t,
    fun t r db1 hreg hb hfail =>
      executeTask_fail_records beh s t r db1 hreg hb hfail,
    fun t msg db1 hreg hb =>
      executeTask_throw_effects beh s t msg db1 hreg hb,
    fun ts1 t ts2 msg hpre ht =>
      executeTaskBatch_first_rejection beh ts1 s t ts2 msg hpre ht,
    fun msg => ⟨rfl, rfl⟩, ?_⟩
  intro s2 msg h
  rw [executeWorkflow, h]

/-- The two tasks of the C1 counterexample batch. -/
def taskThrow : TaskDefinition :=
  { id := "t1", agentType := "web_researcher",
    context := { projectId := "p1", targetCompany := "Acme" },
    priority := 2, dependencies := [] }

def taskOk : TaskDefinition := { taskThrow with id := "t2" }

/-- A behavior whose invocation for task "t1" throws, and whose other
invocations succeed with one finding. -/
def behOneThrow : AgentBehavior := fun t db =>
  if t.id == "t1" then (.exn "boom", db)
  else (.ok { success := true, findings := [AgentDBClient.sampleFinding],
              sources := [], insights := [], tokensUsed := 0,
              error := none }, db)

/-- C1 (counterexample): in a two-task batch whose first task throws,
executeTaskBatch does not resolve normally — it surfaces the exception —
and no recoverable project error entry is recorded for the thrown task,
although the sibling task did run and its finding was merged: the claim
that a thrown task is recorded as a recoverable error entry and never
escapes the Scheduler boundary is false. -/
theorem thrown_task_counterexample :
    (executeTaskBatch behOneThrow
        (startState "p1" AgentDBClient.sampleDoc AgentDBClient.DB.empty)
        [taskThrow, taskOk]).2 = some "boom" ∧
      (executeTaskBatch behOneThrow
        (startState "p1" AgentDBClient.sampleDoc AgentDBClient.DB.empty)
        [taskThrow, taskOk]).1.project.errors = [] ∧
      AgentDBClient.sampleFinding ∈
        (executeTaskBatch behOneThrow
          (startState "p1" AgentDBClient.sampleDoc AgentDBClient.DB.empty)
          [taskThrow, taskOk]).1.project.findings := by
  refine ⟨?_, ?_, ?_⟩ <;> decide

/-- A behavior whose every invocation returns a success=false envelope
carrying the error string "rate_limited". -/
def behFail : AgentBehavior := fun _ db =>
  (.ok { success := false, findings := [], sources := [], insights := [],
         tokensUsed := 0, error := some "rate_limited" }, db)

/-- C1 (witness): the amended claim exercised at concrete inputs: a
success=false task records exactly one recoverable=true entry with the
agent error message and resolves; a thrown head task makes the two-task
batch reject with its message; and the workflow-level handler fails the
project. -/
theorem task_failure_semantics_witness :
    (executeTask behFail (startState "p1" AgentDBClient.sampleDoc
        AgentDBClient.DB.empty) taskOk).1.project.errors =
        [{ agentId := some "web_researcher", type := "internal",
           message := "rate_limited", recoverable := true }] ∧
      (executeTask behFail (startState "p1" AgentDBClient.sampleDoc
        AgentDBClient.DB.empty) taskOk).2 = none ∧
      (executeTaskBatch behOneThrow (startState "p1" AgentDBClient.sampleDoc
        AgentDBClient.DB.empty) ([] ++ taskThrow :: [taskOk])).2 =
        some "boom" ∧
      (handleProjectError (startState "p1" AgentDBClient.sampleDoc
        AgentDBClient.DB.empty) "boom").project.status =
        ResearchStatus.failed := by
  have hfail := (task_failure_semantics behFail
    (startState "p1" AgentDBClient.sampleDoc AgentDBClient.DB.empty)).2.2.1
    taskOk
    { success := false, findings := [], sources := [], insights := [],
      tokensUsed := 0, error := some "rate_limited" }
    _ rfl rfl rfl
  have hesc := (task_failure_semantics behOneThrow
    (startState "p1" AgentDBClient.sampleDoc AgentDBClient.DB.empty)).2.2.2.2.1
    [] taskThrow [taskOk] "boom" rfl (by decide)
  have hcatch := ((task_failure_semantics behOneThrow
    (startState "p1" AgentDBClient.sampleDoc AgentDBClient.DB.empty)).2.2.2.2.2.1
    "boom").1
  refine ⟨?_, hfail.2, hesc, hcatch⟩
  rw [hfail.1]
  decide

/-! ## Claim C2: pausing -/

/-- Task execution never reads the project status: running a task from a
state whose status flag was overridden gives the overridden result
state. -/
theorem executeTask_status_independent (beh : AgentBehavior)
    (t : TaskDefinition) (s : WState) (st : ResearchStatus) :
    executeTask beh { s with project := { s.project with status := st } } t =
      ({ (executeTask beh s t).1 with project :=
          { (executeTask beh s t).1.project with status := st } },
        (executeTask beh s t).2) := by
  by_cases hreg : registeredAgentTypes.contains t.agentType
  · simp only [executeTask]
    rw [if_neg (not_not_intro hreg), if_neg (not_not_intro hreg)]
    have hdb : (updateAgentStatus
        { s with project := { s.project with status := st } } t.agentType
        "active" (some (orTruthyOpt t.context.question "Processing"))).db =
        (updateAgentStatus s t.agentType "active"
          (some (orTruthyOpt t.context.question "Processing"))).db := rfl
    rw [hdb]
    rcases hb : beh t (updateAgentStatus s t.agentType "active"
      (some (orTruthyOpt t.context.question "Processing"))).db with ⟨o, db1⟩
    cases o with
    | ok r => rcases hrs : r.success <;> simp [hrs, updateAgentStatus]
    | exn msg => simp [updateAgentStatus]
  · simp only [executeTask]
    rw [if_pos hreg, if_pos hreg]

/-- The dispatch loop never reads the project status either. -/
theorem executeTaskBatch_status_independent (beh : AgentBehavior) :
    ∀ (ts : List TaskDefinition) (s : WState) (st : ResearchStatus),
      executeTaskBatch beh
          { s with project := { s.project with status := st } } ts =
        ({ (executeTaskBatch beh s ts).1 with project :=
            { (executeTaskBatch beh s ts).1.project with status := st } },
          (executeTaskBatch beh s ts).2) := by
  intro ts
  induction ts with
  | nil => intro s st; rfl
  | cons t ts ih =>
    intro s st
    have e1 : (executeTask beh
        { s with project := { s.project with status := st } } t).1 =
        { (executeTask beh s t).1 with project :=
          { (executeTask beh s t).1.project with status := st } } := by
      rw [executeTask_status_independent beh t s st]
    have e2 : (executeTask beh
        { s with project := { s.project with status := st } } t).2 =
        (executeTask beh s t).2 := by
      rw [executeTask_status_independent beh t s st]
    show ((executeTaskBatch beh (executeTask beh
          { s with project := { s.project with status := st } } t).1 ts).1,
        (executeTask beh
          { s with project := { s.project with status := st } } t).2 <|>
          (executeTaskBatch beh (executeTask beh
            { s with project := { s.project with status := st } } t).1 ts).2) = _
    rw [e1, e2, ih (executeTask beh s t).1 st]
    rfl

/-- C2 (amended): pauseProject sets the status to paused iff the current
status is neither completed nor failed; pausing changes only the status
flag and the stored project-status row — queue, findings, errors and the
rest of the store are untouched — and already-dispatched batch work is
unaffected because the dispatch loop never consults the status; but the
workflow does not check for a pause either: any later phase-boundary
update overwrites the paused status and progress unconditionally, so
phase advancement is not halted. -/
theorem pauseProject_spec (s : WState) :
    ((pauseProject s).project.status = .paused ↔
      (¬ s.project.status = .completed ∧ ¬ s.project.status = .failed)) ∧
    ((pauseProject s).taskQueue = s.taskQueue ∧
     (pauseProject s).project.findings = s.project.findings ∧
     (pauseProject s).project.errors = s.project.errors ∧
     (pauseProject s).db.findings = s.db.findings ∧
     (pauseProject s).db.contexts = s.db.contexts ∧
     (pauseProject s).db.sources = s.db.sources) ∧
    (∀ (beh : AgentBehavior) (ts : List TaskDefinition)
        (st : ResearchStatus),
      executeTaskBatch beh
          { s with project := { s.project with status := st } } ts =
        ({ (executeTaskBatch beh s ts).1 with project :=
            { (executeTaskBatch beh s ts).1.project with status := st } },
          (executeTaskBatch beh s ts).2)) ∧
    (∀ (status : ResearchStatus) (progress : Nat) (phase : String),
      (updateProjectStatus (pauseProject s) status progress phase).project.status
          = status ∧
        (updateProjectStatus (pauseProject s) status progress
          phase).project.progress = progress) := by
  refine ⟨?_, ?_, fun beh ts st => executeTaskBatch_status_independent beh ts s st,
    fun st pr ph => ⟨rfl, rfl⟩⟩
  · rw [pauseProject]
    split
    · rename_i h
      exact ⟨fun _ => h, fun _ => rfl⟩
    · rename_i h
      constructor
      · intro hp
        exact absurd ⟨by simp [hp], by simp [hp]⟩ h
      · intro hcf
        exact absurd hcf h
  · rw [pauseProject]
    split
    · exact ⟨rfl, rfl, rfl, rfl, rfl, rfl⟩
    · exact ⟨rfl, rfl, rfl, rfl, rfl, rfl⟩

/-- The workflow on a concrete project, executed up to the middle of the
analyzing phase: phases 1 and 2, then the 45% boundary update and the
deep-analysis batch (the first half of executeDeepAnalysis,
orchestrator.ts lines 235-245). -/
def runUpToMidAnalyzing : WState :=
  let s1 := planResearch
    (startState "p1" AgentDBClient.sampleDoc AgentDBClient.DB.empty)
  let r2 := executePrimaryResearch behOk s1
  let s3 := updateProjectStatus r2.1 .analyzing 45 "Executing deep analysis"
  (executeTaskBatch behOk s3 (s3.taskQueue.filter
    (fun t => t.agentType == "financial_analyst" ||
      t.agentType == "competitive_intelligence"))).1

/-- `pauseProject` called mid-analyzing. -/
def pausedMidAnalyzing : WState := pauseProject runUpToMidAnalyzing

/-- The remaining workflow code after the pause: the 70% update that ends
executeDeepAnalysis (line 247), then phases 4 and 5. -/
def resumedFinal : WState :=
  let s4 := updateProjectStatus pausedMidAnalyzing .analyzing 70
    "Deep analysis completed"
  let r5 := generateReport behOk s4
  (finalizeProject r5.1).1

/-- C2 (counterexample): pausing mid-analyzing does set the status to
paused, but the workflow never consults it — the very next phase-boundary
update overwrites the status and the remaining phases run to completion,
ending completed at progress 100. The claim that no further phase
transition or status/progress update occurs after a pause is false. -/
theorem pause_does_not_halt_phases_counterexample :
    pausedMidAnalyzing.project.status = .paused ∧
      resumedFinal.project.status = .completed ∧
      resumedFinal.project.progress = 100 := by
  refine ⟨?_, ?_, ?_⟩ <;> decide

/-- C2 (witness): the permitted-pause direction of the amended claim at
the concrete mid-analyzing state. -/
theorem pauseProject_spec_witness :
    (pauseProject runUpToMidAnalyzing).project.status = .paused :=
  (pauseProject_spec runUpToMidAnalyzing).1.mpr (by decide)


/-! ## Claim C6: bounded concurrency (the runningTasks admission control)

The dispatch loop of `executeTaskBatch` (orchestrator.ts lines 338-364)
interleaves with task completions: before dispatching the next queued
task it blocks — polling `waitForAvailableSlot` (lines 539-541) — while
`runningTasks.size >= maxConcurrentAgents`; dispatching adds the
`uuidv4()` task id to `runningTasks`, and each task promise removes its
id in `.finally`, on success or failure alike. The relation below is
that loop's transition system; task ids are pairwise distinct. -/

namespace Scheduler

/-- The dispatch-loop state: the tasks not yet dispatched, in queue
order, and the ids in the `runningTasks` set. -/
structure SchedState where
  pending : List TaskDefinition
  running : List String
  deriving DecidableEq, Repr

/-- One transition of the dispatch loop for a given
`maxConcurrentAgents`: a dispatch of the next queued task, enabled only
while the in-flight count is strictly below the cap, or the completion
(successful or failed) of a running task. -/
inductive Step (maxConcurrentAgents : Nat) : SchedState → SchedState → Prop
  | dispatch (t : TaskDefinition) (ts : List TaskDefinition)
      (running : List String) :
      running.length < maxConcurrentAgents →
      Step maxConcurrentAgents ⟨t :: ts, running⟩ ⟨ts, t.id :: running⟩
  | complete (s : SchedState) (taskId : String) :
      taskId ∈ s.running →
      Step maxConcurrentAgents s ⟨s.pending, s.running.erase taskId⟩

/-- The states the dispatch loop can reach from a fresh batch (empty
running set). -/
inductive Reachable (maxConcurrentAgents : Nat)
    (batch : List TaskDefinition) : SchedState → Prop
  | init : Reachable maxConcurrentAgents batch ⟨batch, []⟩
  | step {s s2 : SchedState} : Reachable maxConcurrentAgents batch s →
      Step maxConcurrentAgents s s2 → Reachable maxConcurrentAgents batch s2

end Scheduler

/-- C6: at every reachable state of the batch-dispatch loop the number of
in-flight tasks is at most the configured maximum concurrency; a task is
admitted only while the in-flight count is strictly below the cap, and
admission increments the count by one; completion — success or failure —
is always possible for a running task and decrements the count by one. -/
theorem concurrency_invariant (maxConcurrentAgents : Nat)
    (batch : List TaskDefinition) :
    (∀ s : Scheduler.SchedState,
      Scheduler.Reachable maxConcurrentAgents batch s →
        s.running.length ≤ maxConcurrentAgents) ∧
    (∀ (t : TaskDefinition) (ts : List TaskDefinition)
        (running : List String) (s2 : Scheduler.SchedState),
      Scheduler.Step maxConcurrentAgents ⟨t :: ts, running⟩ s2 →
        s2.pending = ts →
        running.length < maxConcurrentAgents ∧
          s2.running.length = running.length + 1) ∧
    (∀ (s : Scheduler.SchedState) (taskId : String), taskId ∈ s.running →
      Scheduler.Step maxConcurrentAgents s
          ⟨s.pending, s.running.erase taskId⟩ ∧
        (s.running.erase taskId).length + 1 = s.running.length) := by
  refine ⟨?_, ?_, ?_⟩
  · intro s h
    induction h with
    | init => simp
    | step hr hstep ih =>
      rename_i sPre sPost
      cases hstep with
      | dispatch t ts running hlt => simpa using hlt
      | complete sDup taskId hmem =>
        show (sPre.running.erase taskId).length ≤ maxConcurrentAgents
        exact le_trans ((List.erase_sublist taskId sPre.running).length_le) ih
  · intro t ts running s2 hstep hpend
    cases hstep with
    | dispatch t2 ts2 running2 hlt => exact ⟨hlt, by simp⟩
    | complete sDup taskId hmem =>
      exact absurd hpend (List.cons_ne_self t ts)
  · intro s taskId hmem
    refine ⟨Scheduler.Step.complete s taskId hmem, ?_⟩
    have hpos := List.length_pos_of_mem hmem
    rw [List.length_erase_of_mem hmem]
    omega

/-- C6 (witness): with cap 2, the state reached by dispatching two tasks
satisfies the invariant. -/
theorem concurrency_invariant_witness :
    (Scheduler.SchedState.mk [] [taskOk.id, taskThrow.id]).running.length ≤ 2 :=
  (concurrency_invariant 2 [taskThrow, taskOk]).1
    ⟨[], [taskOk.id, taskThrow.id]⟩
    (Scheduler.Reachable.step
      (Scheduler.Reachable.step Scheduler.Reachable.init
        (Scheduler.Step.dispatch taskThrow [taskOk] [] (by decide)))
      (Scheduler.Step.dispatch taskOk [] [taskThrow.id] (by decide)))

end ResearchOrchestrator

end ReppResent
